import Mathlib

/-!
Verification of the `PupilTracker` eye-tracking core of
`src/python/pipeline/utils/eye_tracking.py`.

The tracker logic is embedded shallowly.  External OpenCV / NumPy
routines called by the tracker (`cv2.erode` together with the boolean
point filter, `cv2.fitEllipse`, `np.sqrt`, and the numeric value of
`goodness_of_fit` as consumed by the candidate loop) are modelled as
function parameters bundled in `CvOps`; the tracker's own arithmetic is
embedded over an arbitrary linear ordered field `K`, instantiated at `ℚ`
for concrete evaluation and at `ℝ` where formulas involve `π`, square
roots or trigonometry.
-/

namespace EyeTracking

/-- Fields of the parameter dictionary `self._params` that the tracking
path reads (see the `PupilTracker` docstring and the lookups in
`get_pupil_from_contours`, `preprocess_image` and `track`). -/
structure Params (K : Type) where
  ratio_threshold : K
  relative_area_threshold : K
  error_threshold : K
  min_contour_len : ℕ
  margin : K
  contrast_threshold : K
  speed_threshold : K
  dr_threshold : K
  gaussian_blur : ℤ
deriving DecidableEq

/-- An OpenCV rotated-rect ellipse `((x, y), (a, b), angle)` as returned
by `cv2.fitEllipse` and stored in `self._last_ellipse`. -/
structure EllipseT (K : Type) where
  center : K × K
  size : K × K
  angle : K
deriving DecidableEq

/-- Tracker object state: the attributes assigned in
`PupilTracker.__init__` and mutated by `get_pupil_from_contours` and
`track`. -/
structure PupilTracker (K M : Type) where
  _params : Params K
  _center : Option (K × K)
  _radius : Option K
  _mask : Option M
  _last_detection : ℕ
  _last_ellipse : Option (EllipseT K)
deriving DecidableEq

/-- Model of `PupilTracker.__init__(self, param, mask=None)`: the
parameters and the mask are stored and the tracking state is
initialised.  The constructor performs no validation of any field. -/
def PupilTracker.init {K M : Type} (param : Params K) (mask : Option M) :
    PupilTracker K M :=
  ⟨param, none, none, mask, 1, none⟩

/-- External routines used inside the candidate loop of
`get_pupil_from_contours`, abstracted as functions: `maskFilter` models
`cv2.erode(mask, kernel)` followed by the point filter
`cnt[mask2[cnt[..., 1], cnt[..., 0]] > 0]`; `fitEllipse` models
`cv2.fitEllipse`; `goodnessOfFit` the numeric result of
`PupilTracker.goodness_of_fit` (its defining formula is verified
separately over `ℝ`); `sqrt` models `np.sqrt`. -/
structure CvOps (K : Type) where
  maskFilter : List (K × K) → List (K × K)
  fitEllipse : List (K × K) → EllipseT K
  goodnessOfFit : List (K × K) → EllipseT K → K
  sqrt : K → K

variable {K : Type} [LinearOrderedField K] {M : Type}

/-- Model of `area = np.prod(ellipse[1]) / np.prod(small_gray.shape)`:
the product of the two fitted axis lengths divided by the number of
pixels of the ROI crop (`shape` is `(rows, cols)`). -/
def relArea (axes : K × K) (shape : ℕ × ℕ) : K :=
  axes.1 * axes.2 / ((shape.1 : K) * (shape.2 : K))

/-- The per-candidate quantities computed in the body of the
`for j, cnt in enumerate(contours)` loop of `get_pupil_from_contours`. -/
structure CandEval (K : Type) where
  cnt : List (K × K)
  ellipse : EllipseT K
  ratio : K
  area : K
  rmse : K
  centerN : K × K
  r : K
  dx : K
  dr : K
  matching : ℕ
deriving DecidableEq

/-- One iteration of the candidate loop of `get_pupil_from_contours`,
up to (but not including) the best-candidate update: filter the contour
through the eroded mask, skip it when fewer than `min_contour_len`
points remain, fit an ellipse, skip when an axis degenerates to zero,
and compute the scored quantities and the seven matching conditions.
The `results`/`cond` logging dictionaries and the drawing calls have no
effect on the returned values and are omitted. -/
def candEval (ops : CvOps K) (self : PupilTracker K M) (shape : ℕ × ℕ)
    (cnt0 : List (K × K)) : Option (CandEval K) :=
  let cnt := ops.maskFilter cnt0
  if cnt.length < self._params.min_contour_len then none
  else
    let e := ops.fitEllipse cnt
    if min e.size.1 e.size.2 = 0 then none
    else
      let ratio := max e.size.1 e.size.2 / min e.size.1 e.size.2
      let area := relArea e.size shape
      let currErr := ops.goodnessOfFit cnt e
      let centerN : K × K := (e.center.1 / (shape.2 : K), e.center.2 / (shape.1 : K))
      let r := max e.size.1 e.size.2
      let dr := match self._radius with
        | none => 0
        | some R => |r - R| / R
      let dx := match self._center with
        | none => 0
        | some lc => ops.sqrt ((centerN.1 - lc.1) ^ 2 + (centerN.2 - lc.2) ^ 2)
      let m :=
        (if ratio ≤ self._params.ratio_threshold then 1 else 0) +
        (if area ≥ self._params.relative_area_threshold then 1 else 0) +
        (if currErr < self._params.error_threshold then 1 else 0) +
        (if self._params.margin < centerN.1 ∧ centerN.1 < 1 - self._params.margin then 1 else 0) +
        (if self._params.margin < centerN.2 ∧ centerN.2 < 1 - self._params.margin then 1 else 0) +
        (if dx < self._params.speed_threshold * (self._last_detection : K) then 1 else 0) +
        (if dr < self._params.dr_threshold * (self._last_detection : K) then 1 else 0)
      some ⟨cnt, e, ratio, area, currErr, centerN, r, dx, dr, m⟩

/-- The running best-candidate selection of `get_pupil_from_contours`:
the accumulator holds the current `(best_contour, best_ellipse, err)`
triple, `none` standing for the initial `err = np.inf` state (in which
any full-match candidate wins the comparison `curr_err < err`).  A
candidate replaces the best exactly when
`curr_err < err and matching_conditions == 7`. -/
def scoreFold (ops : CvOps K) (self : PupilTracker K M) (shape : ℕ × ℕ) :
    List (List (K × K)) → Option (List (K × K) × EllipseT K × K) →
    Option (List (K × K) × EllipseT K × K)
  | [], best => best
  | c :: t, best =>
    match candEval ops self shape c with
    | none => scoreFold ops self shape t best
    | some ev =>
      if (match best with
          | none => true
          | some b => decide (ev.rmse < b.2.2)) && (ev.matching == 7) then
        scoreFold ops self shape t (some (ev.cnt, ev.ellipse, ev.rmse))
      else
        scoreFold ops self shape t best

/-- Model of `PupilTracker.get_pupil_from_contours` (the printing and
DataFrame diagnostics on failure affect neither the returned pair nor
the state).  Returns the `(best_contour, best_ellipse)` pair — both
`None` or both set, hence one `Option` of the pair — together with the
updated tracker: `self._last_detection` is incremented on failure and
reset to 1 on success. -/
def get_pupil_from_contours (ops : CvOps K) (self : PupilTracker K M)
    (contours : List (List (K × K))) (shape : ℕ × ℕ) :
    Option (List (K × K) × EllipseT K) × PupilTracker K M :=
  match scoreFold ops self shape contours none with
  | none => (none, { self with _last_detection := self._last_detection + 1 })
  | some (c, e, _) => (some (c, e), { self with _last_detection := 1 })

/-- One frame of video input as consumed by the state-update logic of
`PupilTracker.track`: either a failed `cap.read()`, or a frame reduced
to the data the update logic reads — the contrast value `img_std`
returned by `preprocess_image` and the contours found by
`cv2.findContours` on the masked thresholded image (the spatial-prior
mask construction and `thres` multiplication are external image
operations happening before contour extraction). -/
inductive FrameInput (K : Type) where
  | readFail
  | frame (img_std : K) (contours : List (List (K × K)))

/-- The per-frame dictionary appended to `traces` by
`PupilTracker.track`, as a tagged variant. -/
inductive TraceRec (K : Type) where
  | dropped (frame_id : ℕ)
  | lowContrast (frame_id : ℕ) (frame_intensity : K)
  | noDetection (frame_id : ℕ) (frame_intensity : K)
  | detected (frame_id : ℕ) (center : K × K) (major_r : K)
      (rect : EllipseT K) (contour : List (K × K)) (frame_intensity : K)
deriving DecidableEq

/-- Boolean discriminator for `TraceRec.noDetection`. -/
def TraceRec.isNoDet : TraceRec K → Bool
  | .noDetection _ _ => true
  | _ => false

/-- Boolean discriminator for `TraceRec.detected`. -/
def TraceRec.isDetected : TraceRec K → Bool
  | .detected _ _ _ _ _ _ => true
  | _ => false

/-- One iteration of the `while cap.isOpened()` loop of
`PupilTracker.track`, for frame number `fr_count`: on a read failure a
`DroppedFrame` record is appended and nothing else happens; when
`img_std < contrast_threshold` a `LowContrast` record is appended and
the state is untouched; otherwise the contours are scored,
`self._last_ellipse = ellipse` is assigned unconditionally, and the
frame ends as `NoDetection` or as `Detected` (in the latter case
`self._center` and `self._radius` are set from the winning ellipse and
the global eye center is `eye_roi[::-1, 0] + ellipse[0]`, here
`roiOrigin + center`).  `shape` is `small_gray.shape = (rows, cols)`. -/
def trackStep (ops : CvOps K) (shape : ℕ × ℕ) (roiOrigin : K × K)
    (self : PupilTracker K M) (fr_count : ℕ) (inp : FrameInput K) :
    PupilTracker K M × TraceRec K :=
  match inp with
  | .readFail => (self, .dropped fr_count)
  | .frame img_std contours =>
    if img_std < self._params.contrast_threshold then
      (self, .lowContrast fr_count img_std)
    else
      let res := get_pupil_from_contours ops self contours shape
      let self2 := { res.2 with _last_ellipse := res.1.map fun r => r.2 }
      match res.1 with
      | none => (self2, .noDetection fr_count img_std)
      | some (c, e) =>
        ({ self2 with
            _center := some (e.center.1 / (shape.2 : K), e.center.2 / (shape.1 : K)),
            _radius := some (max e.size.1 e.size.2) },
          .detected fr_count (roiOrigin.1 + e.center.1, roiOrigin.2 + e.center.2)
            (max e.size.1 e.size.2) e c img_std)

/-- Iteration of `trackStep` over a list of (frame number, frame input)
pairs, collecting the emitted trace records in order: the body of the
tracking loop of `PupilTracker.track`. -/
def trackRun (ops : CvOps K) (shape : ℕ × ℕ) (roiOrigin : K × K)
    (self : PupilTracker K M) :
    List (ℕ × FrameInput K) → PupilTracker K M × List (TraceRec K)
  | [] => (self, [])
  | (fid, inp) :: t =>
    let s1 := trackStep ops shape roiOrigin self fid inp
    let s2 := trackRun ops shape roiOrigin s1.1 t
    (s2.1, s1.2 :: s2.2)

/-! Preprocessing: the `extreme_meso` running-average branch of
`preprocess_image`, modelled over `ℚ` with the ROI crop as a flat list
of pixel values (`exponent` modelled as a natural number; the update is
pointwise, so the pixel arrangement is irrelevant). -/

/-- Model of `x.astype(np.uint8)` for the nonnegative float pixel
values produced by the running-average update: truncation followed by
reduction modulo 256. -/
def toU8 (x : ℚ) : ℚ := ((Int.toNat ⌊x⌋ % 256 : ℕ) : ℚ)

/-- Model of `(v / 255) ** p * 255`, the adaptive-gamma pixel map of
the `extreme_meso` branch. -/
def mesoPow (p : ℕ) (x : ℚ) : ℚ := (x / 255) ^ p * 255

/-- Pointwise running-average update
`c * (v / 255) ** p * 255 + (1 - c) * r` of the `extreme_meso`
branch. -/
def mesoBlend (c : ℚ) (p : ℕ) (x r : ℚ) : ℚ :=
  c * mesoPow p x + (1 - c) * r

/-- Model of the `extreme_meso` branch of `preprocess_image` on one
frame, acting on the ROI crop `small_gray`: given the current
`self._running_avg` (`none` before its lazy initialisation), return the
new buffer and the value of the loop variable `small_gray` after the
branch — the image subsequently handed to `cv2.GaussianBlur`.  When
`self._running_avg is None` the buffer is initialised to
`(crop / 255) ** p * 255` and `small_gray` is not reassigned; otherwise
the blended buffer replaces `small_gray` after an `astype(np.uint8)`
cast. -/
def meso_step (c : ℚ) (p : ℕ) (ravg : Option (List ℚ)) (crop : List ℚ) :
    List ℚ × List ℚ :=
  match ravg with
  | none => (crop.map (mesoPow p), crop)
  | some R =>
    let R2 := List.zipWith (mesoBlend c p) crop R
    (R2, R2.map toU8)

/-- Iteration of `meso_step` over the successive ROI crops of a video,
starting from a given buffer state, returning for each frame the image
handed to `cv2.GaussianBlur`. -/
def meso_run (c : ℚ) (p : ℕ) : Option (List ℚ) → List (List ℚ) → List (List ℚ)
  | _, [] => []
  | ravg, crop :: t =>
    let s := meso_step c p ravg crop
    s.2 :: meso_run c p (some s.1) t

/-- Buffer recurrence stated by the amended claim: `R₀` is the
gamma-mapped first crop and `Rᵢ₊₁` blends crop `i + 1` into `Rᵢ`. -/
def mesoBuf (c : ℚ) (p : ℕ) (crops : ℕ → List ℚ) : ℕ → List ℚ
  | 0 => (crops 0).map (mesoPow p)
  | i + 1 => List.zipWith (mesoBlend c p) (crops (i + 1)) (mesoBuf c p crops i)

/-- Buffer recurrence started from an arbitrary buffer `R`: the state
of `self._running_avg` after frames `0, …, i` of a run whose buffer was
already initialised to `R`. -/
def mesoBufFrom (c : ℚ) (p : ℕ) (R : List ℚ) (crops : ℕ → List ℚ) : ℕ → List ℚ
  | 0 => List.zipWith (mesoBlend c p) (crops 0) R
  | i + 1 => List.zipWith (mesoBlend c p) (crops (i + 1)) (mesoBufFrom c p R crops i)

/-! Preprocessing: the contrast signal.  The grayscale conversion
(`cv2.cvtColor`), the blur and the Otsu threshold are external; what is
modelled is the computation of `img_std` and of the ROI crop
`small_gray` from the full grayscale image, over `ℝ` since `np.std`
takes a square root. -/

/-- Row-major flattening of an image given as a list of rows. -/
def flattenImg {α : Type} (g : List (List α)) : List α := g.flatten

/-- Model of `gray[slice(*eye_roi[0]), slice(*eye_roi[1])]`: the ROI
crop of an image, `roi = ((r0, r1), (c0, c1))` selecting rows
`r0 ≤ i < r1` and columns `c0 ≤ j < c1`. -/
def cropROI {α : Type} (g : List (List α)) (roi : (ℕ × ℕ) × (ℕ × ℕ)) :
    List (List α) :=
  ((g.drop roi.1.1).take (roi.1.2 - roi.1.1)).map fun row =>
    (row.drop roi.2.1).take (roi.2.2 - roi.2.1)

/-- Model of `np.std` on a list of values: the square root of the
population variance (mean of squared deviations from the mean). -/
noncomputable def npStd (xs : List ℝ) : ℝ :=
  Real.sqrt (((xs.map fun x => (x - xs.sum / xs.length) ^ 2).sum) / xs.length)

/-- Model of lines 305–308 of `preprocess_image`: from the full
grayscale image, `img_std = np.std(gray)` (computed on the full image,
before any cropping) and the ROI crop `small_gray`. -/
noncomputable def preprocess_image_model (g : List (List ℝ))
    (roi : (ℕ × ℕ) × (ℕ × ℕ)) : ℝ × List (List ℝ) :=
  (npStd (flattenImg g), cropROI g roi)

/-! The goodness-of-fit residual, over `ℝ` (it uses `cos`, `sin` and a
square root). -/

/-- Model of the static method `PupilTracker.goodness_of_fit`: the
angle is converted to radians, `err` accumulates over the contour
points the squared normalized conic residual of the point rotated into
the ellipse frame, and the result is `np.sqrt(err / len(contour))`. -/
noncomputable def goodness_of_fit (contour : List (ℝ × ℝ)) (e : EllipseT ℝ) : ℝ :=
  let a := e.angle * Real.pi / 180
  let err := contour.foldl
    (fun acc coord =>
      let posx := (coord.1 - e.center.1) * Real.cos (-a) -
        (coord.2 - e.center.2) * Real.sin (-a)
      let posy := (coord.1 - e.center.1) * Real.sin (-a) +
        (coord.2 - e.center.2) * Real.cos (-a)
      acc + ((posx / e.size.1) ^ 2 + (posy / e.size.2) ^ 2 - 0.25) ^ 2) 0
  Real.sqrt (err / contour.length)

/-! Spec-side definitions (written from the specification's wording,
for comparison with the source-derived definitions above). -/

/-- Spec wording of 4.4: the candidates with `matchCount == 7`, in
evaluation order, each with its contour, ellipse and `rmse`. -/
def fullMatches (ops : CvOps K) (self : PupilTracker K M) (shape : ℕ × ℕ)
    (contours : List (List (K × K))) : List (List (K × K) × EllipseT K × K) :=
  contours.filterMap fun c =>
    match candEval ops self shape c with
    | none => none
    | some ev => if ev.matching = 7 then some (ev.cnt, ev.ellipse, ev.rmse) else none

/-- Spec wording of the relative area: the geometric ellipse area
`π · major · minor / 4` divided by the ROI area. -/
noncomputable def specRelativeArea (axes : ℝ × ℝ) (shape : ℕ × ℕ) : ℝ :=
  Real.pi * axes.1 * axes.2 / 4 / ((shape.1 : ℝ) * (shape.2 : ℝ))

/-- Spec wording of the local frame: the contour point translated by
the negated center and rotated by the negated (radian) angle,
x component. -/
noncomputable def specLocalX (e : EllipseT ℝ) (q : ℝ × ℝ) : ℝ :=
  (q.1 - e.center.1) * Real.cos (-(e.angle * Real.pi / 180)) -
    (q.2 - e.center.2) * Real.sin (-(e.angle * Real.pi / 180))

/-- Spec wording of the local frame, y component. -/
noncomputable def specLocalY (e : EllipseT ℝ) (q : ℝ × ℝ) : ℝ :=
  (q.1 - e.center.1) * Real.sin (-(e.angle * Real.pi / 180)) +
    (q.2 - e.center.2) * Real.cos (-(e.angle * Real.pi / 180))

/-- Spec wording of the normalized conic residual of one contour point:
`((localX / majorAxis)² + (localY / minorAxis)² − 0.25)²`, the first
size component playing the major axis and the second the minor axis as
in the spec's `Ellipse` data model. -/
noncomputable def specConicResidual (e : EllipseT ℝ) (q : ℝ × ℝ) : ℝ :=
  ((specLocalX e q / e.size.1) ^ 2 + (specLocalY e q / e.size.2) ^ 2 - 0.25) ^ 2

/-- Model of `ManualTracker.set_min_contour` (the interactive
trackbar callback): the only place in the source where
`min_contour_len` is clamped to at least 5. -/
def set_min_contour (m : ℕ) : ℕ := max m 5

/-! Concrete fixtures used by witnesses and counterexamples. -/

/-- Trivial external operations, for frames whose candidate list is
empty (the functions are then never applied). -/
def dummyOps : CvOps K :=
  ⟨id, fun _ => ⟨(0, 0), (1, 1), 0⟩, fun _ _ => 0, fun _ => 0⟩

/-- A plausible parameter set over `ℚ`. -/
def qParams : Params ℚ :=
  ⟨3, 1 / 10000, 1, 5, 1 / 10, 5, 1 / 5, 1 / 5, 3⟩

/-- A freshly constructed tracker over those parameters. -/
def qTracker : PupilTracker ℚ Unit := PupilTracker.init qParams none

/-- A tracker state in which a previous detection succeeded. -/
def qTrackerPrior : PupilTracker ℚ Unit :=
  { qTracker with
      _center := some (1 / 2, 1 / 2)
      _radius := some 10
      _last_ellipse := some ⟨(10, 10), (20, 20), 0⟩ }

/-- External operations whose fit is a fixed centered ellipse and whose
goodness of fit decreases with contour length, to build distinct
full-match candidates. -/
def qOpsScore : CvOps ℚ :=
  ⟨id, fun _ => ⟨(10, 10), (10, 10), 0⟩, fun c _ => 1 / (c.length : ℚ), fun _ => 0⟩

/-- External operations with a fixed non-circular fit, for evaluating a
single candidate. -/
def qOpsFit : CvOps ℚ :=
  ⟨id, fun _ => ⟨(10, 10), (10, 8), 0⟩, fun _ _ => 1 / 10, fun _ => 0⟩

/-- A five-point candidate contour. -/
def qCnt5 : List (ℚ × ℚ) := [(0, 0), (1, 0), (2, 0), (3, 0), (4, 0)]

/-- A six-point candidate contour. -/
def qCnt6 : List (ℚ × ℚ) := [(0, 0), (1, 0), (2, 0), (3, 0), (4, 0), (5, 0)]

/-- A malformed parameter set: `min_contour_len = 3 < 5`, margin
`7/10 ∉ (0, 0.5)`, blur half-width `0`. -/
def badParams : Params ℚ :=
  ⟨3, 1 / 10000, 1, 3, 7 / 10, 5, 1 / 5, 1 / 5, 0⟩

/-- A two-row, one-column grayscale frame. -/
def gFrame : List (List ℝ) := [[0], [2]]

/-- An ROI selecting the second row of `gFrame`. -/
def roi0 : (ℕ × ℕ) × (ℕ × ℕ) := ((1, 2), (0, 1))

/-- A tracker over `ℝ` with contrast threshold `1/2`. -/
noncomputable def rTracker : PupilTracker ℝ Unit :=
  PupilTracker.init ⟨3, 1 / 10000, 1, 5, 1 / 10, 1 / 2, 1 / 5, 1 / 5, 3⟩ none

/-! Helper lemmas shared by the claim theorems. -/

/-- Full characterisation of a successful `candEval`: the returned
record holds exactly the quantities the loop body computes from the
filtered contour, the fitted ellipse and the tracker state. -/
theorem candEval_some_spec (ops : CvOps K) (self : PupilTracker K M)
    (shape : ℕ × ℕ) (cnt0 : List (K × K)) (ev : CandEval K)
    (h : candEval ops self shape cnt0 = some ev) :
    ev.cnt = ops.maskFilter cnt0 ∧
    ev.ellipse = ops.fitEllipse (ops.maskFilter cnt0) ∧
    ev.area = relArea ev.ellipse.size shape ∧
    ev.rmse = ops.goodnessOfFit ev.cnt ev.ellipse ∧
    ev.centerN = (ev.ellipse.center.1 / (shape.2 : K), ev.ellipse.center.2 / (shape.1 : K)) ∧
    ev.r = max ev.ellipse.size.1 ev.ellipse.size.2 ∧
    ev.dr = (match self._radius with
      | none => 0
      | some R => |ev.r - R| / R) ∧
    ev.dx = (match self._center with
      | none => 0
      | some lc => ops.sqrt ((ev.centerN.1 - lc.1) ^ 2 + (ev.centerN.2 - lc.2) ^ 2)) := by
  unfold candEval at h
  by_cases h1 : (ops.maskFilter cnt0).length < self._params.min_contour_len
  · simp [h1] at h
  · simp only [h1, if_false] at h
    by_cases h2 : min (ops.fitEllipse (ops.maskFilter cnt0)).size.1
        (ops.fitEllipse (ops.maskFilter cnt0)).size.2 = 0
    · simp [h2] at h
    · simp only [h2, if_false, Option.some.injEq] at h
      subst h
      refine ⟨rfl, rfl, rfl, rfl, rfl, rfl, rfl, rfl⟩

/-- The scorer state update of `get_pupil_from_contours` touches only
`_last_detection`. -/
theorem get_pupil_state_fields (ops : CvOps K) (self : PupilTracker K M)
    (contours : List (List (K × K))) (shape : ℕ × ℕ) :
    (get_pupil_from_contours ops self contours shape).2._params = self._params ∧
    (get_pupil_from_contours ops self contours shape).2._center = self._center ∧
    (get_pupil_from_contours ops self contours shape).2._radius = self._radius ∧
    (get_pupil_from_contours ops self contours shape).2._mask = self._mask ∧
    (get_pupil_from_contours ops self contours shape).2._last_ellipse = self._last_ellipse := by
  unfold get_pupil_from_contours
  rcases scoreFold ops self shape contours none with _ | ⟨c, e, q⟩ <;>
    exact ⟨rfl, rfl, rfl, rfl, rfl⟩

/-- The `_last_detection` update of `get_pupil_from_contours`:
incremented when no candidate was selected, reset to 1 otherwise. -/
theorem get_pupil_last_detection (ops : CvOps K) (self : PupilTracker K M)
    (contours : List (List (K × K))) (shape : ℕ × ℕ) :
    ((get_pupil_from_contours ops self contours shape).1 = none →
      (get_pupil_from_contours ops self contours shape).2._last_detection =
        self._last_detection + 1) ∧
    (∀ r, (get_pupil_from_contours ops self contours shape).1 = some r →
      (get_pupil_from_contours ops self contours shape).2._last_detection = 1) := by
  unfold get_pupil_from_contours
  rcases scoreFold ops self shape contours none with _ | ⟨c, e, q⟩ <;> simp

/-! Claim C4. -/

/-- C4: for every frame whose measured contrast is below
`contrast_threshold`, `track` emits a `LowContrast` record carrying the
frame id and the frame intensity and leaves every tracker state field
unchanged (`_last_ellipse`, `_center`, `_radius` and `_last_detection`
all keep their previous values): the step returns the state object
unchanged. -/
theorem c4_low_contrast_leaves_state (ops : CvOps K) (shape : ℕ × ℕ)
    (roiOrigin : K × K) (self : PupilTracker K M) (fr_count : ℕ)
    (img_std : K) (contours : List (List (K × K)))
    (h : img_std < self._params.contrast_threshold) :
    trackStep ops shape roiOrigin self fr_count (.frame img_std contours) =
      (self, .lowContrast fr_count img_std) := by
  unfold trackStep
  simp [h]

/-- Witness for C4 at a concrete low-contrast frame. -/
theorem c4_witness :
    (2 : ℚ) < qTracker._params.contrast_threshold ∧
    trackStep (dummyOps (K := ℚ)) (20, 20) (0, 0) qTracker 1 (.frame 2 []) =
      (qTracker, .lowContrast 1 2) := by
  have h : (2 : ℚ) < qTracker._params.contrast_threshold := by
    norm_num [qTracker, qParams, PupilTracker.init]
  exact ⟨h, c4_low_contrast_leaves_state _ _ _ _ _ _ _ h⟩

/-! Claim C7. -/

/-- C7, counterexample to the claim as stated: construction with a
malformed configuration (`min_contour_len = 3 < 5`, margin
`7/10 ∉ (0, 0.5)`, blur half-width `0`) does not fail — `__init__`
returns the ordinary initial state and stores the malformed values
verbatim. -/
theorem c7_counterexample :
    badParams.min_contour_len = 3 ∧
    badParams.margin = 7 / 10 ∧
    badParams.gaussian_blur = 0 ∧
    PupilTracker.init badParams (none : Option Unit) =
      ⟨badParams, none, none, none, 1, none⟩ ∧
    (PupilTracker.init badParams (none : Option Unit))._params.min_contour_len = 3 :=
  ⟨rfl, rfl, rfl, rfl, rfl⟩

omit [LinearOrderedField K] in
/-- C7, amended: construction never fails and never clamps —
`PupilTracker.__init__` stores any parameter set (malformed or not)
unchanged and initialises the state to
(no center, no radius, no last ellipse, failure counter 1); the only
clamping of `min_contour_len` to at least 5 in the source is the
interactive `ManualTracker.set_min_contour` trackbar callback. -/
theorem c7_amended_init_no_validation (p : Params K) (mask : Option M)
    (m : ℕ) (hm : m < 5) :
    PupilTracker.init p mask = ⟨p, none, none, mask, 1, none⟩ ∧
    (PupilTracker.init p mask)._params = p ∧
    (PupilTracker.init p mask)._last_detection = 1 ∧
    set_min_contour m = 5 := by
  refine ⟨rfl, rfl, rfl, ?_⟩
  unfold set_min_contour
  omega

/-- Witness for C7 at the malformed parameter set. -/
theorem c7_witness :
    (3 : ℕ) < 5 ∧
    (PupilTracker.init badParams (none : Option Unit) =
        ⟨badParams, none, none, none, 1, none⟩ ∧
      (PupilTracker.init badParams (none : Option Unit))._params = badParams ∧
      (PupilTracker.init badParams (none : Option Unit))._last_detection = 1 ∧
      set_min_contour 3 = 5) :=
  ⟨by omega, c7_amended_init_no_validation badParams none 3 (by omega)⟩

/-! Claim C1. -/

/-- C1, counterexample to the claim as stated: on a frame where contour
scoring runs and no full-match candidate is found, `_last_ellipse` is
not left unchanged — `track` assigns `self._last_ellipse = ellipse`
unconditionally, clearing it to `None`.  Here the state before the
frame holds a previous successful ellipse and the frame's candidate
list is empty. -/
theorem c1_counterexample :
    qTrackerPrior._last_ellipse = some ⟨(10, 10), (20, 20), 0⟩ ∧
    (get_pupil_from_contours (dummyOps (K := ℚ)) qTrackerPrior [] (20, 20)).1 = none ∧
    (trackStep (dummyOps (K := ℚ)) (20, 20) (0, 0) qTrackerPrior 7
        (.frame 10 [])).1._last_ellipse = none := by
  refine ⟨rfl, rfl, ?_⟩
  norm_num [trackStep, get_pupil_from_contours, scoreFold, qTrackerPrior, qTracker,
    qParams, PupilTracker.init]

/-- C1, amended: on a failure frame (contour scoring ran, no full-match
candidate), `_center` and `_radius` are left unchanged (still the most
recent successful values) and the consecutive-failure counter
`_last_detection` is incremented by one, but `_last_ellipse` is set to
`None` rather than left unchanged, so the spatial-prior mask does not
persist across the failure; the frame is recorded as `NoDetection`. -/
theorem c1_amended_failure_update (ops : CvOps K) (shape : ℕ × ℕ)
    (roiOrigin : K × K) (self : PupilTracker K M) (fid : ℕ) (img_std : K)
    (cnts : List (List (K × K)))
    (hstd : ¬ img_std < self._params.contrast_threshold)
    (hfail : (get_pupil_from_contours ops self cnts shape).1 = none) :
    (trackStep ops shape roiOrigin self fid (.frame img_std cnts)).1._center =
      self._center ∧
    (trackStep ops shape roiOrigin self fid (.frame img_std cnts)).1._radius =
      self._radius ∧
    (trackStep ops shape roiOrigin self fid (.frame img_std cnts)).1._last_detection =
      self._last_detection + 1 ∧
    (trackStep ops shape roiOrigin self fid (.frame img_std cnts)).1._last_ellipse =
      none ∧
    (trackStep ops shape roiOrigin self fid (.frame img_std cnts)).2 =
      .noDetection fid img_std := by
  have hst := get_pupil_state_fields ops self cnts shape
  have hld := (get_pupil_last_detection ops self cnts shape).1 hfail
  have hstep : trackStep ops shape roiOrigin self fid (.frame img_std cnts) =
      ({ (get_pupil_from_contours ops self cnts shape).2 with _last_ellipse := none },
        .noDetection fid img_std) := by
    unfold trackStep
    simp only [hstd, if_false, hfail, Option.map_none']
  rw [hstep]
  exact ⟨hst.2.1, hst.2.2.1, hld, rfl, rfl⟩

/-- Witness for C1 (amended) at a concrete failure frame. -/
theorem c1_witness :
    (¬ (10 : ℚ) < qTrackerPrior._params.contrast_threshold) ∧
    (get_pupil_from_contours (dummyOps (K := ℚ)) qTrackerPrior [] (20, 20)).1 = none ∧
    ((trackStep (dummyOps (K := ℚ)) (20, 20) (0, 0) qTrackerPrior 7
        (.frame 10 [])).1._center = qTrackerPrior._center ∧
      (trackStep (dummyOps (K := ℚ)) (20, 20) (0, 0) qTrackerPrior 7
        (.frame 10 [])).1._radius = qTrackerPrior._radius ∧
      (trackStep (dummyOps (K := ℚ)) (20, 20) (0, 0) qTrackerPrior 7
        (.frame 10 [])).1._last_detection = qTrackerPrior._last_detection + 1 ∧
      (trackStep (dummyOps (K := ℚ)) (20, 20) (0, 0) qTrackerPrior 7
        (.frame 10 [])).1._last_ellipse = none ∧
      (trackStep (dummyOps (K := ℚ)) (20, 20) (0, 0) qTrackerPrior 7
        (.frame 10 [])).2 = .noDetection 7 10) := by
  have hstd : ¬ (10 : ℚ) < qTrackerPrior._params.contrast_threshold := by
    norm_num [qTrackerPrior, qTracker, qParams, PupilTracker.init]
  exact ⟨hstd, rfl, c1_amended_failure_update _ _ _ _ _ _ _ hstd rfl⟩

/-! Claim C5. -/

/-- C5, counterexample to the claim as stated: the relative area the
scorer uses is `np.prod(axes) / np.prod(shape)` — the full product of
the axes, i.e. the area of the enclosing rotated rectangle — not the
geometric ellipse area `π · major · minor / 4` over the ROI area; for
axes `(2, 2)` on a one-pixel crop the code's value is 4 while the
spec's formula gives `π`. -/
theorem c5_counterexample :
    relArea ((2 : ℝ), 2) (1, 1) = 4 ∧
    specRelativeArea (2, 2) (1, 1) = Real.pi ∧
    relArea ((2 : ℝ), 2) (1, 1) ≠ specRelativeArea (2, 2) (1, 1) := by
  have h4 : relArea ((2 : ℝ), 2) (1, 1) = 4 := by norm_num [relArea]
  have hpi : specRelativeArea (2, 2) (1, 1) = Real.pi := by
    simp only [specRelativeArea]
    push_cast
    ring
  refine ⟨h4, hpi, ?_⟩
  rw [h4, hpi]
  intro h
  have := Real.pi_lt_d2
  linarith

/-- C5, amended: the relative area used in the acceptance criterion
`relativeArea ≥ relativeAreaThreshold` equals the product
`majorAxis · minorAxis` of the fitted axes (no `π/4` factor) divided by
the ROI crop area. -/
theorem c5_amended_area_formula (ops : CvOps K) (self : PupilTracker K M)
    (shape : ℕ × ℕ) (cnt0 : List (K × K)) (ev : CandEval K)
    (h : candEval ops self shape cnt0 = some ev) :
    ev.area = (ops.fitEllipse (ops.maskFilter cnt0)).size.1 *
      (ops.fitEllipse (ops.maskFilter cnt0)).size.2 /
        ((shape.1 : K) * (shape.2 : K)) := by
  obtain ⟨-, he, ha, -⟩ := candEval_some_spec ops self shape cnt0 ev h
  rw [ha, he]
  rfl

/-- Witness for C5 (amended) at a concrete candidate. -/
theorem c5_witness :
    candEval qOpsFit qTracker (20, 20) qCnt5 =
      some ⟨qCnt5, ⟨(10, 10), (10, 8), 0⟩, 5 / 4, 1 / 5, 1 / 10, (1 / 2, 1 / 2),
        10, 0, 0, 7⟩ ∧
    (⟨qCnt5, ⟨(10, 10), (10, 8), 0⟩, 5 / 4, 1 / 5, 1 / 10, (1 / 2, 1 / 2),
        10, 0, 0, 7⟩ : CandEval ℚ).area =
      (qOpsFit.fitEllipse (qOpsFit.maskFilter qCnt5)).size.1 *
        (qOpsFit.fitEllipse (qOpsFit.maskFilter qCnt5)).size.2 /
          (((20 : ℕ) : ℚ) * ((20 : ℕ) : ℚ)) := by
  have h : candEval qOpsFit qTracker (20, 20) qCnt5 =
      some ⟨qCnt5, ⟨(10, 10), (10, 8), 0⟩, 5 / 4, 1 / 5, 1 / 10, (1 / 2, 1 / 2),
        10, 0, 0, 7⟩ := by
    norm_num [candEval, qOpsFit, qTracker, qParams, PupilTracker.init, qCnt5, relArea]
  exact ⟨h, c5_amended_area_formula qOpsFit qTracker (20, 20) qCnt5 _ h⟩

/-! Claim C2: the selection rule of the candidate loop. -/

/-- Invariant of the selection loop started from an already-selected
best candidate `b`: either nothing beats `b` and `b`'s error is minimal
over the remaining full matches, or the loop returns the earliest
remaining full match of minimal error, which is strictly below `b`'s. -/
theorem scoreFold_some_spec (ops : CvOps K) (self : PupilTracker K M)
    (shape : ℕ × ℕ) (cnts : List (List (K × K))) :
    ∀ b : List (K × K) × EllipseT K × K,
      (scoreFold ops self shape cnts (some b) = some b ∧
        ∀ m ∈ fullMatches ops self shape cnts, b.2.2 ≤ m.2.2) ∨
      (∃ r l₁ l₂, scoreFold ops self shape cnts (some b) = some r ∧
        fullMatches ops self shape cnts = l₁ ++ r :: l₂ ∧ r.2.2 < b.2.2 ∧
        (∀ m ∈ l₁, r.2.2 < m.2.2) ∧
        (∀ m ∈ fullMatches ops self shape cnts, r.2.2 ≤ m.2.2)) := by
  induction cnts with
  | nil =>
    intro b
    left
    exact ⟨rfl, by simp [fullMatches]⟩
  | cons c t ih =>
    intro b
    rcases hc : candEval ops self shape c with _ | ev
    · have hfm : fullMatches ops self shape (c :: t) = fullMatches ops self shape t := by
        simp [fullMatches, List.filterMap_cons, hc]
      have hsf : scoreFold ops self shape (c :: t) (some b) =
          scoreFold ops self shape t (some b) := by
        simp [scoreFold, hc]
      rw [hfm, hsf]
      exact ih b
    · by_cases hm7 : ev.matching = 7
      · have hfm : fullMatches ops self shape (c :: t) =
            (ev.cnt, ev.ellipse, ev.rmse) :: fullMatches ops self shape t := by
          simp [fullMatches, List.filterMap_cons, hc, hm7]
        by_cases hlt : ev.rmse < b.2.2
        · have hsf : scoreFold ops self shape (c :: t) (some b) =
              scoreFold ops self shape t (some (ev.cnt, ev.ellipse, ev.rmse)) := by
            simp [scoreFold, hc, hm7, hlt]
          rw [hfm, hsf]
          rcases ih (ev.cnt, ev.ellipse, ev.rmse) with ⟨heq, hall⟩ |
            ⟨r, l₁, l₂, heq, hsplit, hrb, hl₁, hall⟩
          · right
            refine ⟨(ev.cnt, ev.ellipse, ev.rmse), [], fullMatches ops self shape t,
              heq, rfl, hlt, by simp, ?_⟩
            intro m hm
            rcases List.mem_cons.mp hm with h | h
            · rw [h]
            · exact hall m h
          · right
            refine ⟨r, (ev.cnt, ev.ellipse, ev.rmse) :: l₁, l₂, heq, by rw [hsplit]; rfl,
              lt_trans hrb hlt, ?_, ?_⟩
            · intro m hm
              rcases List.mem_cons.mp hm with h | h
              · rw [h]; exact hrb
              · exact hl₁ m h
            · intro m hm
              rcases List.mem_cons.mp hm with h | h
              · rw [h]; exact le_of_lt hrb
              · exact hall m h
        · have hsf : scoreFold ops self shape (c :: t) (some b) =
              scoreFold ops self shape t (some b) := by
            simp [scoreFold, hc, hm7, hlt]
          rw [hfm, hsf]
          rcases ih b with ⟨heq, hall⟩ | ⟨r, l₁, l₂, heq, hsplit, hrb, hl₁, hall⟩
          · left
            refine ⟨heq, ?_⟩
            intro m hm
            rcases List.mem_cons.mp hm with h | h
            · rw [h]; exact le_of_not_lt hlt
            · exact hall m h
          · right
            refine ⟨r, (ev.cnt, ev.ellipse, ev.rmse) :: l₁, l₂, heq, by rw [hsplit]; rfl,
              hrb, ?_, ?_⟩
            · intro m hm
              rcases List.mem_cons.mp hm with h | h
              · rw [h]; exact lt_of_lt_of_le hrb (le_of_not_lt hlt)
              · exact hl₁ m h
            · intro m hm
              rcases List.mem_cons.mp hm with h | h
              · rw [h]; exact le_of_lt (lt_of_lt_of_le hrb (le_of_not_lt hlt))
              · exact hall m h
      · have hfm : fullMatches ops self shape (c :: t) = fullMatches ops self shape t := by
          simp [fullMatches, List.filterMap_cons, hc, hm7]
        have hsf : scoreFold ops self shape (c :: t) (some b) =
            scoreFold ops self shape t (some b) := by
          simp [scoreFold, hc, hm7]
        rw [hfm, hsf]
        exact ih b

/-- Selection loop started from the initial `err = np.inf` state: it
returns nothing exactly when there is no full match, and otherwise the
earliest full match of minimal error. -/
theorem scoreFold_none_spec (ops : CvOps K) (self : PupilTracker K M)
    (shape : ℕ × ℕ) (cnts : List (List (K × K))) :
    (scoreFold ops self shape cnts none = none ∧
      fullMatches ops self shape cnts = []) ∨
    (∃ r l₁ l₂, scoreFold ops self shape cnts none = some r ∧
      fullMatches ops self shape cnts = l₁ ++ r :: l₂ ∧
      (∀ m ∈ l₁, r.2.2 < m.2.2) ∧
      (∀ m ∈ fullMatches ops self shape cnts, r.2.2 ≤ m.2.2)) := by
  induction cnts with
  | nil =>
    left
    exact ⟨rfl, by simp [fullMatches]⟩
  | cons c t ih =>
    rcases hc : candEval ops self shape c with _ | ev
    · have hfm : fullMatches ops self shape (c :: t) = fullMatches ops self shape t := by
        simp [fullMatches, List.filterMap_cons, hc]
      have hsf : scoreFold ops self shape (c :: t) none =
          scoreFold ops self shape t none := by
        simp [scoreFold, hc]
      rw [hfm, hsf]
      exact ih
    · by_cases hm7 : ev.matching = 7
      · have hfm : fullMatches ops self shape (c :: t) =
            (ev.cnt, ev.ellipse, ev.rmse) :: fullMatches ops self shape t := by
          simp [fullMatches, List.filterMap_cons, hc, hm7]
        have hsf : scoreFold ops self shape (c :: t) none =
            scoreFold ops self shape t (some (ev.cnt, ev.ellipse, ev.rmse)) := by
          simp [scoreFold, hc, hm7]
        rw [hfm, hsf]
        rcases scoreFold_some_spec ops self shape t (ev.cnt, ev.ellipse, ev.rmse) with
          ⟨heq, hall⟩ | ⟨r, l₁, l₂, heq, hsplit, hrb, hl₁, hall⟩
        · right
          refine ⟨(ev.cnt, ev.ellipse, ev.rmse), [], fullMatches ops self shape t,
            heq, rfl, by simp, ?_⟩
          intro m hm
          rcases List.mem_cons.mp hm with h | h
          · rw [h]
          · exact hall m h
        · right
          refine ⟨r, (ev.cnt, ev.ellipse, ev.rmse) :: l₁, l₂, heq, by rw [hsplit]; rfl, ?_, ?_⟩
          · intro m hm
            rcases List.mem_cons.mp hm with h | h
            · rw [h]; exact hrb
            · exact hl₁ m h
          · intro m hm
            rcases List.mem_cons.mp hm with h | h
            · rw [h]; exact le_of_lt hrb
            · exact hall m h
      · have hfm : fullMatches ops self shape (c :: t) = fullMatches ops self shape t := by
          simp [fullMatches, List.filterMap_cons, hc, hm7]
        have hsf : scoreFold ops self shape (c :: t) none =
            scoreFold ops self shape t none := by
          simp [scoreFold, hc, hm7]
        rw [hfm, hsf]
        exact ih

/-- C2: for every list of candidate contours, `get_pupil_from_contours`
returns no detection exactly when no candidate attains
`matchCount == 7`, and otherwise returns the candidate with the minimal
`rmse` among all full matches, ties broken in favour of the earliest
candidate in evaluation order (every full match strictly earlier than
the winner has a strictly larger `rmse`). -/
theorem c2_selection_rule (ops : CvOps K) (self : PupilTracker K M)
    (cnts : List (List (K × K))) (shape : ℕ × ℕ) :
    ((get_pupil_from_contours ops self cnts shape).1 = none ↔
      fullMatches ops self shape cnts = []) ∧
    (∀ c e, (get_pupil_from_contours ops self cnts shape).1 = some (c, e) →
      ∃ q l₁ l₂, fullMatches ops self shape cnts = l₁ ++ (c, e, q) :: l₂ ∧
        (∀ m ∈ fullMatches ops self shape cnts, q ≤ m.2.2) ∧
        (∀ m ∈ l₁, q < m.2.2)) := by
  rcases scoreFold_none_spec ops self shape cnts with ⟨heq, hfm⟩ |
    ⟨r, l₁, l₂, heq, hsplit, hl₁, hall⟩
  · constructor
    · rw [hfm]
      unfold get_pupil_from_contours
      rw [heq]
      simp
    · intro c e h
      unfold get_pupil_from_contours at h
      rw [heq] at h
      simp at h
  · obtain ⟨r1, r2, r3⟩ := r
    constructor
    · unfold get_pupil_from_contours
      rw [heq]
      simp only [hsplit]
      simp
    · intro c e h
      unfold get_pupil_from_contours at h
      rw [heq] at h
      simp only [Option.some.injEq, Prod.mk.injEq] at h
      obtain ⟨hc', he'⟩ := h
      subst hc'
      subst he'
      exact ⟨r3, l₁, l₂, hsplit, hall, hl₁⟩

/-- Witness for C2: two full-match candidates with errors `1/5` and
`1/6`; the second (smaller-error) one is selected. -/
theorem c2_witness :
    (get_pupil_from_contours qOpsScore qTracker [qCnt5, qCnt6] (20, 20)).1 =
      some (qCnt6, ⟨(10, 10), (10, 10), 0⟩) ∧
    (∃ q l₁ l₂,
      fullMatches qOpsScore qTracker (20, 20) [qCnt5, qCnt6] =
        l₁ ++ (qCnt6, ⟨(10, 10), (10, 10), 0⟩, q) :: l₂ ∧
      (∀ m ∈ fullMatches qOpsScore qTracker (20, 20) [qCnt5, qCnt6], q ≤ m.2.2) ∧
      (∀ m ∈ l₁, q < m.2.2)) := by
  have h : (get_pupil_from_contours qOpsScore qTracker [qCnt5, qCnt6] (20, 20)).1 =
      some (qCnt6, ⟨(10, 10), (10, 10), 0⟩) := by
    norm_num [get_pupil_from_contours, scoreFold, candEval, qOpsScore, qTracker,
      qParams, PupilTracker.init, qCnt5, qCnt6, relArea]
  exact ⟨h, (c2_selection_rule qOpsScore qTracker [qCnt5, qCnt6] (20, 20)).2 qCnt6 _ h⟩

/-! More helper lemmas about the two scored outcomes of `trackStep`. -/

/-- A scored frame with no selected candidate: the step clears
`_last_ellipse` and records `NoDetection`. -/
theorem trackStep_noDetection_eq (ops : CvOps K) (shape : ℕ × ℕ)
    (roiOrigin : K × K) (self : PupilTracker K M) (fid : ℕ) (img_std : K)
    (cnts : List (List (K × K)))
    (hstd : ¬ img_std < self._params.contrast_threshold)
    (hfail : (get_pupil_from_contours ops self cnts shape).1 = none) :
    trackStep ops shape roiOrigin self fid (.frame img_std cnts) =
      ({ (get_pupil_from_contours ops self cnts shape).2 with _last_ellipse := none },
        .noDetection fid img_std) := by
  unfold trackStep
  simp only [hstd, if_false, hfail, Option.map_none']

/-- A scored frame with a selected candidate: the step stores the
winning ellipse, the normalized center and the major radius, and
records `Detected`. -/
theorem trackStep_detected_eq (ops : CvOps K) (shape : ℕ × ℕ)
    (roiOrigin : K × K) (self : PupilTracker K M) (fid : ℕ) (img_std : K)
    (cnts : List (List (K × K))) (c : List (K × K)) (e : EllipseT K)
    (hstd : ¬ img_std < self._params.contrast_threshold)
    (hp : (get_pupil_from_contours ops self cnts shape).1 = some (c, e)) :
    trackStep ops shape roiOrigin self fid (.frame img_std cnts) =
      ({ (get_pupil_from_contours ops self cnts shape).2 with
          _last_ellipse := some e,
          _center := some (e.center.1 / (shape.2 : K), e.center.2 / (shape.1 : K)),
          _radius := some (max e.size.1 e.size.2) },
        .detected fid (roiOrigin.1 + e.center.1, roiOrigin.2 + e.center.2)
          (max e.size.1 e.size.2) e c img_std) := by
  unfold trackStep
  simp only [hstd, if_false, hp, Option.map_some']

/-- A step whose trace is `noDetection` increments `_last_detection`
by exactly one. -/
theorem trackStep_isNoDet_ld (ops : CvOps K) (shape : ℕ × ℕ)
    (roiOrigin : K × K) (self : PupilTracker K M) (fid : ℕ) (inp : FrameInput K)
    (h : (trackStep ops shape roiOrigin self fid inp).2.isNoDet = true) :
    (trackStep ops shape roiOrigin self fid inp).1._last_detection =
      self._last_detection + 1 := by
  cases inp with
  | readFail => simp [trackStep, TraceRec.isNoDet] at h
  | frame img_std cnts =>
    by_cases hstd : img_std < self._params.contrast_threshold
    · simp [trackStep, hstd, TraceRec.isNoDet] at h
    · rcases hp : (get_pupil_from_contours ops self cnts shape).1 with _ | ⟨c, e⟩
      · rw [trackStep_noDetection_eq ops shape roiOrigin self fid img_std cnts hstd hp]
        exact (get_pupil_last_detection ops self cnts shape).1 hp
      · rw [trackStep_detected_eq ops shape roiOrigin self fid img_std cnts c e hstd hp] at h
        simp [TraceRec.isNoDet] at h

/-- Every step either leaves `_center` and `_radius` untouched, or (on
a detection) sets both to fresh `some` values. -/
theorem trackStep_anchor_step (ops : CvOps K) (shape : ℕ × ℕ)
    (roiOrigin : K × K) (self : PupilTracker K M) (fid : ℕ) (inp : FrameInput K) :
    ((trackStep ops shape roiOrigin self fid inp).1._center = self._center ∧
      (trackStep ops shape roiOrigin self fid inp).1._radius = self._radius ∧
      (trackStep ops shape roiOrigin self fid inp).2.isDetected = false) ∨
    (∃ p rr, (trackStep ops shape roiOrigin self fid inp).1._center = some p ∧
      (trackStep ops shape roiOrigin self fid inp).1._radius = some rr ∧
      (trackStep ops shape roiOrigin self fid inp).2.isDetected = true) := by
  cases inp with
  | readFail => left; exact ⟨rfl, rfl, rfl⟩
  | frame img_std cnts =>
    by_cases hstd : img_std < self._params.contrast_threshold
    · left
      constructor
      · simp [trackStep, hstd]
      · constructor
        · simp [trackStep, hstd]
        · simp [trackStep, hstd, TraceRec.isDetected]
    · rcases hp : (get_pupil_from_contours ops self cnts shape).1 with _ | ⟨c, e⟩
      · left
        rw [trackStep_noDetection_eq ops shape roiOrigin self fid img_std cnts hstd hp]
        have hst := get_pupil_state_fields ops self cnts shape
        exact ⟨hst.2.1, hst.2.2.1, rfl⟩
      · right
        rw [trackStep_detected_eq ops shape roiOrigin self fid img_std cnts c e hstd hp]
        exact ⟨_, _, rfl, rfl, rfl⟩

/-! Claim C3. -/

/-- C3: the consecutive-failure counter `_last_detection` starts at 1
at construction, is reset to exactly 1 whenever a full-match candidate
is selected and incremented by exactly 1 whenever scoring runs without
a full match; it stays at least 1 across any step; and over a run of
`N` consecutive no-detection frames it takes the strictly increasing
values `k + 1, …, k + N` (value `k + n` after the `n`-th frame of the
run, the pre-run value being `k`). -/
theorem c3_failure_counter (ops : CvOps K) (shape : ℕ × ℕ) (roiOrigin : K × K) :
    (∀ (p : Params K) (mask : Option M), (PupilTracker.init p mask)._last_detection = 1) ∧
    (∀ (self : PupilTracker K M) (cnts : List (List (K × K))),
      ((get_pupil_from_contours ops self cnts shape).1 = none →
        (get_pupil_from_contours ops self cnts shape).2._last_detection =
          self._last_detection + 1) ∧
      (∀ r, (get_pupil_from_contours ops self cnts shape).1 = some r →
        (get_pupil_from_contours ops self cnts shape).2._last_detection = 1)) ∧
    (∀ (self : PupilTracker K M) (fid : ℕ) (inp : FrameInput K),
      1 ≤ self._last_detection →
        1 ≤ (trackStep ops shape roiOrigin self fid inp).1._last_detection) ∧
    (∀ (self : PupilTracker K M) (frames : List (ℕ × FrameInput K)),
      (∀ tr ∈ (trackRun ops shape roiOrigin self frames).2, tr.isNoDet = true) →
      ∀ n, n ≤ frames.length →
        (trackRun ops shape roiOrigin self (List.take n frames)).1._last_detection =
          self._last_detection + n) := by
  refine ⟨fun p mask => rfl, fun self cnts => get_pupil_last_detection ops self cnts shape,
    ?_, ?_⟩
  · intro self fid inp h1
    cases inp with
    | readFail => exact h1
    | frame img_std cnts =>
      by_cases hstd : img_std < self._params.contrast_threshold
      · simpa [trackStep, hstd] using h1
      · rcases hp : (get_pupil_from_contours ops self cnts shape).1 with _ | ⟨c, e⟩
        · rw [trackStep_noDetection_eq ops shape roiOrigin self fid img_std cnts hstd hp]
          have := (get_pupil_last_detection ops self cnts shape).1 hp
          simp only [this]
          omega
        · rw [trackStep_detected_eq ops shape roiOrigin self fid img_std cnts c e hstd hp]
          have := (get_pupil_last_detection ops self cnts shape).2 (c, e) hp
          simp only [this]
          omega
  · intro self frames
    induction frames generalizing self with
    | nil =>
      intro _ n hn
      have hn0 : n = 0 := by simpa using hn
      subst hn0
      rfl
    | cons f t ih =>
      intro hall n hn
      obtain ⟨fid, inp⟩ := f
      have hrun : trackRun ops shape roiOrigin self ((fid, inp) :: t) =
          ((trackRun ops shape roiOrigin
              (trackStep ops shape roiOrigin self fid inp).1 t).1,
            (trackStep ops shape roiOrigin self fid inp).2 ::
              (trackRun ops shape roiOrigin
                (trackStep ops shape roiOrigin self fid inp).1 t).2) := rfl
      have hhead : (trackStep ops shape roiOrigin self fid inp).2.isNoDet = true := by
        apply hall
        rw [hrun]
        exact List.mem_cons_self _ _
      have htail : ∀ tr ∈ (trackRun ops shape roiOrigin
          (trackStep ops shape roiOrigin self fid inp).1 t).2, tr.isNoDet = true := by
        intro tr htr
        apply hall
        rw [hrun]
        exact List.mem_cons_of_mem _ htr
      cases n with
      | zero => rfl
      | succ n =>
        have hn' : n ≤ t.length := by simpa using hn
        have hstep := trackStep_isNoDet_ld ops shape roiOrigin self fid inp hhead
        calc (trackRun ops shape roiOrigin self
            (List.take (n + 1) ((fid, inp) :: t))).1._last_detection
            = (trackRun ops shape roiOrigin
                (trackStep ops shape roiOrigin self fid inp).1
                (List.take n t)).1._last_detection := rfl
          _ = (trackStep ops shape roiOrigin self fid inp).1._last_detection + n :=
              ih (trackStep ops shape roiOrigin self fid inp).1 htail n hn'
          _ = self._last_detection + (n + 1) := by rw [hstep]; omega

/-- Witness for C3: a two-frame all-failure run starting from the
freshly constructed tracker takes the counter from 1 to 3. -/
theorem c3_witness :
    (∀ tr ∈ (trackRun (dummyOps (K := ℚ)) (20, 20) (0, 0) qTracker
        [(1, .frame 10 []), (2, .frame 10 [])]).2, tr.isNoDet = true) ∧
    (2 : ℕ) ≤ 2 ∧
    (trackRun (dummyOps (K := ℚ)) (20, 20) (0, 0) qTracker
        (List.take 2 [(1, .frame 10 []), (2, .frame 10 [])])).1._last_detection =
      qTracker._last_detection + 2 := by
  have hl : (trackRun (dummyOps (K := ℚ)) (20, 20) (0, 0) qTracker
      [(1, .frame 10 []), (2, .frame 10 [])]).2 =
      [.noDetection 1 10, .noDetection 2 10] := by
    norm_num [trackRun, trackStep, get_pupil_from_contours, scoreFold, dummyOps,
      qTracker, qParams, PupilTracker.init]
  have hall : ∀ tr ∈ (trackRun (dummyOps (K := ℚ)) (20, 20) (0, 0) qTracker
      [(1, .frame 10 []), (2, .frame 10 [])]).2, tr.isNoDet = true := by
    intro tr htr
    rw [hl] at htr
    simp only [List.mem_cons, List.not_mem_nil, or_false] at htr
    rcases htr with h | h <;> rw [h] <;> rfl
  exact ⟨hall, le_refl 2,
    (c3_failure_counter (dummyOps (K := ℚ)) (20, 20) (0, 0)).2.2.2 qTracker
      [(1, .frame 10 []), (2, .frame 10 [])] hall 2 (by norm_num)⟩

/-! Claim C10. -/

/-- C10: once a detection has succeeded, the continuity anchors
`_center` and `_radius` are never reset to `None`: a step whose trace
is not `Detected` leaves both fields exactly unchanged, a whole run
preserves their being set, and on every scored candidate the `dx` and
`dr` quantities are computed against the current `_center` and
`_radius` — the values of the most recent successful detection — even
when `_last_ellipse` is `None`. -/
theorem c10_anchors_persist (ops : CvOps K) (shape : ℕ × ℕ) (roiOrigin : K × K) :
    (∀ (self : PupilTracker K M) (fid : ℕ) (inp : FrameInput K),
      (trackStep ops shape roiOrigin self fid inp).2.isDetected = false →
        (trackStep ops shape roiOrigin self fid inp).1._center = self._center ∧
        (trackStep ops shape roiOrigin self fid inp).1._radius = self._radius) ∧
    (∀ (self : PupilTracker K M) (frames : List (ℕ × FrameInput K)),
      (self._center ≠ none →
        (trackRun ops shape roiOrigin self frames).1._center ≠ none) ∧
      (self._radius ≠ none →
        (trackRun ops shape roiOrigin self frames).1._radius ≠ none)) ∧
    (∀ (self : PupilTracker K M) (cnt0 : List (K × K)) (ev : CandEval K),
      candEval ops self shape cnt0 = some ev →
      (∀ lc, self._center = some lc →
        ev.dx = ops.sqrt ((ev.centerN.1 - lc.1) ^ 2 + (ev.centerN.2 - lc.2) ^ 2)) ∧
      (∀ R, self._radius = some R → ev.dr = |ev.r - R| / R)) := by
  refine ⟨?_, ?_, ?_⟩
  · intro self fid inp hnd
    rcases trackStep_anchor_step ops shape roiOrigin self fid inp with
      ⟨hc, hr, _⟩ | ⟨p, rr, _, _, hd⟩
    · exact ⟨hc, hr⟩
    · rw [hd] at hnd
      cases hnd
  · intro self frames
    induction frames generalizing self with
    | nil => exact ⟨fun h => h, fun h => h⟩
    | cons f t ih =>
      obtain ⟨fid, inp⟩ := f
      have hrun : (trackRun ops shape roiOrigin self ((fid, inp) :: t)).1 =
          (trackRun ops shape roiOrigin
            (trackStep ops shape roiOrigin self fid inp).1 t).1 := rfl
      rw [hrun]
      constructor
      · intro hc
        refine (ih (trackStep ops shape roiOrigin self fid inp).1).1 ?_
        rcases trackStep_anchor_step ops shape roiOrigin self fid inp with
          ⟨h1, _, _⟩ | ⟨p, rr, h1, _, _⟩
        · rw [h1]; exact hc
        · rw [h1]; exact Option.some_ne_none p
      · intro hr
        refine (ih (trackStep ops shape roiOrigin self fid inp).1).2 ?_
        rcases trackStep_anchor_step ops shape roiOrigin self fid inp with
          ⟨_, h2, _⟩ | ⟨p, rr, _, h2, _⟩
        · rw [h2]; exact hr
        · rw [h2]; exact Option.some_ne_none rr
  · intro self cnt0 ev hev
    obtain ⟨-, -, -, -, -, -, hdr, hdx⟩ := candEval_some_spec ops self shape cnt0 ev hev
    constructor
    · intro lc hlc
      rw [hdx, hlc]
    · intro R hR
      rw [hdr, hR]

/-- Witness for C10: starting from a state with anchors set, a
two-frame all-failure run leaves the anchors set, and a concrete
candidate evaluation against that state uses them. -/
theorem c10_witness :
    qTrackerPrior._center ≠ none ∧
    qTrackerPrior._radius ≠ none ∧
    (trackRun (dummyOps (K := ℚ)) (20, 20) (0, 0) qTrackerPrior
      [(1, .frame 10 []), (2, .frame 10 [])]).1._center ≠ none ∧
    (trackRun (dummyOps (K := ℚ)) (20, 20) (0, 0) qTrackerPrior
      [(1, .frame 10 []), (2, .frame 10 [])]).1._radius ≠ none := by
  have hc : qTrackerPrior._center ≠ none := by
    simp [qTrackerPrior, qTracker, PupilTracker.init]
  have hr : qTrackerPrior._radius ≠ none := by
    simp [qTrackerPrior, qTracker, PupilTracker.init]
  have h := (c10_anchors_persist (dummyOps (K := ℚ)) (20, 20) (0, 0)).2.1
    qTrackerPrior [(1, .frame 10 []), (2, .frame 10 [])]
  exact ⟨hc, hr, h.1 hc, h.2 hr⟩

/-! Claim C6. -/

/-- C6, counterexample to the claim as stated: the contrast signal is
not the standard deviation of the ROI crop.  On a frame whose full
grayscale image is `[[0], [2]]` (standard deviation 1) with an ROI
selecting only the second row (crop standard deviation 0) and contrast
threshold `1/2`, the crop's standard deviation is below the threshold,
yet the frame is not gated as `LowContrast` — it proceeds to scoring
and ends as `NoDetection`. -/
theorem c6_counterexample :
    npStd (flattenImg (cropROI gFrame roi0)) = 0 ∧
    npStd (flattenImg gFrame) = 1 ∧
    npStd (flattenImg (cropROI gFrame roi0)) < rTracker._params.contrast_threshold ∧
    (trackStep (dummyOps (K := ℝ)) (1, 1) (0, 0) rTracker 1
        (.frame (preprocess_image_model gFrame roi0).1 [])).2 =
      TraceRec.noDetection 1 (preprocess_image_model gFrame roi0).1 := by
  have hcrop : flattenImg (cropROI gFrame roi0) = [(2 : ℝ)] := rfl
  have hflat : flattenImg gFrame = [(0 : ℝ), 2] := rfl
  have h0 : npStd [(2 : ℝ)] = 0 := by
    simp only [npStd]
    norm_num
  have h1 : npStd [(0 : ℝ), 2] = 1 := by
    simp only [npStd]
    norm_num
  have hpre : (preprocess_image_model gFrame roi0).1 = 1 := by
    show npStd (flattenImg gFrame) = 1
    rw [hflat, h1]
  have hthr : rTracker._params.contrast_threshold = 1 / 2 := rfl
  refine ⟨by rw [hcrop, h0], by rw [hflat, h1], ?_, ?_⟩
  · rw [hcrop, h0, hthr]
    norm_num
  · rw [hpre]
    have hstd : ¬ (1 : ℝ) < rTracker._params.contrast_threshold := by
      rw [hthr]
      norm_num
    have hfail : (get_pupil_from_contours (dummyOps (K := ℝ)) rTracker []
        (1, 1)).1 = none := rfl
    rw [trackStep_noDetection_eq (dummyOps (K := ℝ)) (1, 1) (0, 0) rTracker 1 1 []
      hstd hfail]

/-- C6, amended: the contrast signal compared against
`contrastThreshold` is the standard deviation of the full grayscale
frame (`np.std(gray)`, computed before cropping), not of the ROI crop:
for every frame the gate takes the `LowContrast` branch exactly when
the full-frame standard deviation is below the threshold. -/
theorem c6_amended_contrast_signal {M : Type} (g : List (List ℝ))
    (roi : (ℕ × ℕ) × (ℕ × ℕ)) (ops : CvOps ℝ) (shape : ℕ × ℕ)
    (roiOrigin : ℝ × ℝ) (self : PupilTracker ℝ M) (fid : ℕ)
    (cnts : List (List (ℝ × ℝ))) :
    (preprocess_image_model g roi).1 = npStd (flattenImg g) ∧
    ((trackStep ops shape roiOrigin self fid
        (.frame (preprocess_image_model g roi).1 cnts)).2 =
      TraceRec.lowContrast fid (preprocess_image_model g roi).1 ↔
      npStd (flattenImg g) < self._params.contrast_threshold) := by
  have hpre : (preprocess_image_model g roi).1 = npStd (flattenImg g) := rfl
  refine ⟨hpre, ?_⟩
  rw [hpre]
  by_cases h : npStd (flattenImg g) < self._params.contrast_threshold
  · have hstep : trackStep ops shape roiOrigin self fid
        (.frame (npStd (flattenImg g)) cnts) =
        (self, .lowContrast fid (npStd (flattenImg g))) := by
      unfold trackStep
      simp [h]
    rw [hstep]
    exact ⟨fun _ => h, fun _ => rfl⟩
  · constructor
    · intro hcontra
      exfalso
      rcases hp : (get_pupil_from_contours ops self cnts shape).1 with _ | ⟨c, e⟩
      · rw [trackStep_noDetection_eq ops shape roiOrigin self fid _ cnts h hp] at hcontra
        simp at hcontra
      · rw [trackStep_detected_eq ops shape roiOrigin self fid _ cnts c e h hp] at hcontra
        simp at hcontra
    · intro hlt
      exact absurd hlt h

/-- Witness for C6 (amended) at the concrete frame `gFrame`. -/
theorem c6_witness :
    (preprocess_image_model gFrame roi0).1 = npStd (flattenImg gFrame) ∧
    ((trackStep (dummyOps (K := ℝ)) (1, 1) (0, 0) rTracker 1
        (.frame (preprocess_image_model gFrame roi0).1 [])).2 =
      TraceRec.lowContrast 1 (preprocess_image_model gFrame roi0).1 ↔
      npStd (flattenImg gFrame) < rTracker._params.contrast_threshold) :=
  c6_amended_contrast_signal gFrame roi0 (dummyOps (K := ℝ)) (1, 1) (0, 0)
    rTracker 1 []

/-! Claim C8. -/

/-- The error accumulation of `goodness_of_fit` equals the sum of the
per-point normalized conic residuals. -/
theorem goodness_err_sum (e : EllipseT ℝ) :
    ∀ (l : List (ℝ × ℝ)) (a : ℝ),
      List.foldl (fun acc coord =>
        let posx := (coord.1 - e.center.1) * Real.cos (-(e.angle * Real.pi / 180)) -
          (coord.2 - e.center.2) * Real.sin (-(e.angle * Real.pi / 180))
        let posy := (coord.1 - e.center.1) * Real.sin (-(e.angle * Real.pi / 180)) +
          (coord.2 - e.center.2) * Real.cos (-(e.angle * Real.pi / 180))
        acc + ((posx / e.size.1) ^ 2 + (posy / e.size.2) ^ 2 - 0.25) ^ 2) a l =
      a + (l.map (specConicResidual e)).sum := by
  intro l
  induction l with
  | nil =>
    intro a
    simp
  | cons q t ih =>
    intro a
    rw [List.foldl_cons, ih, List.map_cons, List.sum_cons]
    change a + specConicResidual e q + _ = _
    rw [add_assoc]

/-- C8: `goodness_of_fit` returns the square root of the mean, over the
contour points, of the squared normalized conic residual
`((localX / majorAxis)² + (localY / minorAxis)² − 0.25)²` of the point
translated by the negated center and rotated by the negated angle. -/
theorem c8_goodness_of_fit_formula (contour : List (ℝ × ℝ)) (e : EllipseT ℝ) :
    goodness_of_fit contour e =
      Real.sqrt (((contour.map (specConicResidual e)).sum) / contour.length) := by
  simp only [goodness_of_fit]
  rw [goodness_err_sum e contour 0, zero_add]

/-! Claim C9. -/

/-- C9, counterexample to the claim as stated: on the first frame
(lazily initialising the buffer) the image fed to the Gaussian blur is
the raw crop, not the running-average buffer cast to 8-bit — for the
one-pixel crop `[128]` with exponent 2 the buffer casts to `[64]` while
the blur receives `[128]`. -/
theorem c9_counterexample :
    (meso_step (1 / 2) 2 none [128]).2 = [128] ∧
    (meso_step (1 / 2) 2 none [128]).1 = [mesoPow 2 128] ∧
    List.map toU8 (meso_step (1 / 2) 2 none [128]).1 = [64] ∧
    (meso_step (1 / 2) 2 none [128]).2 ≠
      List.map toU8 (meso_step (1 / 2) 2 none [128]).1 := by
  have hN : (Int.toNat 64 % 256 : ℕ) = 64 := by simp
  have h : List.map toU8 (meso_step (1 / 2) 2 none [128]).1 = [64] := by
    norm_num [meso_step, toU8, mesoPow, hN]
  refine ⟨rfl, rfl, h, ?_⟩
  rw [h]
  intro hbad
  have hlist : ([(128 : ℚ)] : List ℚ) = [64] := hbad
  injection hlist with h1 h2
  norm_num at h1

/-- Length of a `meso_run` output. -/
theorem meso_run_length (c : ℚ) (p : ℕ) :
    ∀ (ravg : Option (List ℚ)) (crops : List (List ℚ)),
      (meso_run c p ravg crops).length = crops.length := by
  intro ravg crops
  induction crops generalizing ravg with
  | nil => rfl
  | cons crop t ih => simp [meso_run, ih]

/-- Shift law for the buffer recurrence started from `R`. -/
theorem mesoBufFrom_shift (c : ℚ) (p : ℕ) (R : List ℚ) (crops : ℕ → List ℚ) :
    ∀ i, mesoBufFrom c p R crops (i + 1) =
      mesoBufFrom c p (List.zipWith (mesoBlend c p) (crops 0) R)
        (fun j => crops (j + 1)) i := by
  intro i
  induction i with
  | zero => rfl
  | succ i ih =>
    show List.zipWith (mesoBlend c p) (crops (i + 2)) (mesoBufFrom c p R crops (i + 1)) = _
    rw [ih]
    rfl

/-- Shift law relating the lazily initialised buffer recurrence to the
started-from-`R₀` one. -/
theorem mesoBuf_shift (c : ℚ) (p : ℕ) (crops : ℕ → List ℚ) :
    ∀ i, mesoBuf c p crops (i + 1) =
      mesoBufFrom c p ((crops 0).map (mesoPow p)) (fun j => crops (j + 1)) i := by
  intro i
  induction i with
  | zero => rfl
  | succ i ih =>
    show List.zipWith (mesoBlend c p) (crops (i + 2)) (mesoBuf c p crops (i + 1)) = _
    rw [ih]
    rfl

/-- On a run whose buffer is already initialised to `R`, frame `i` is
fed the `i`-th blended buffer cast to 8-bit. -/
theorem meso_run_some_getD (c : ℚ) (p : ℕ) :
    ∀ (crops : List (List ℚ)) (R : List ℚ) (i : ℕ), i < crops.length →
      (meso_run c p (some R) crops).getD i [] =
        (mesoBufFrom c p R (fun j => crops.getD j []) i).map toU8 := by
  intro crops
  induction crops with
  | nil =>
    intro R i h
    simp at h
  | cons crop t ih =>
    intro R i h
    cases i with
    | zero => rfl
    | succ i =>
      have h' : i < t.length := by simpa using h
      show (meso_run c p (some (List.zipWith (mesoBlend c p) crop R)) t).getD i [] = _
      rw [ih (List.zipWith (mesoBlend c p) crop R) i h', mesoBufFrom_shift]
      rfl

/-- C9, amended: when the extreme-meso running-average mode is enabled,
the first frame lazily initialises the buffer to
`(crop/255)^p · 255` but feeds the raw grayscale crop to the Gaussian
blur; every subsequent frame `i + 1` feeds the updated buffer
`R = c·(crop/255)^p·255 + (1−c)·R_prev` cast to 8-bit. -/
theorem c9_amended_meso_feed (c : ℚ) (p : ℕ) (crops : List (List ℚ)) :
    (meso_run c p none crops).length = crops.length ∧
    (0 < crops.length →
      (meso_run c p none crops).getD 0 [] = crops.getD 0 []) ∧
    (∀ i, i + 1 < crops.length →
      (meso_run c p none crops).getD (i + 1) [] =
        (mesoBuf c p (fun j => crops.getD j []) (i + 1)).map toU8) := by
  refine ⟨meso_run_length c p none crops, ?_, ?_⟩
  · intro h
    cases crops with
    | nil => simp at h
    | cons crop t => rfl
  · intro i hi
    cases crops with
    | nil => simp at hi
    | cons crop t =>
      have hi' : i < t.length := by simpa using hi
      show (meso_run c p (some (crop.map (mesoPow p))) t).getD i [] = _
      rw [meso_run_some_getD c p t (crop.map (mesoPow p)) i hi', mesoBuf_shift]
      rfl

/-- Witness for C9 (amended) on a concrete two-frame run. -/
theorem c9_witness :
    (meso_run (1 / 2) 2 none [[128], [128]]).length = 2 ∧
    (0 : ℕ) < 2 ∧
    (meso_run (1 / 2) 2 none [[128], [128]]).getD 0 [] = [128] ∧
    (0 : ℕ) + 1 < 2 ∧
    (meso_run (1 / 2) 2 none [[128], [128]]).getD 1 [] =
      (mesoBuf (1 / 2) 2 (fun j => [[(128 : ℚ)], [128]].getD j []) 1).map toU8 := by
  have h := c9_amended_meso_feed (1 / 2) 2 [[128], [128]]
  refine ⟨h.1, by norm_num, ?_, by norm_num, h.2.2 0 (by norm_num)⟩
  rw [h.2.1 (by norm_num)]
  rfl

end EyeTracking
